import Mathlib

/-!
Verification development for the Mesos resource-provider registrar
(src/resource_provider/registrar.cpp).

The registry data model and the operations are embedded as executable Lean
definitions translated from the C++ source.  The actor
(GenericRegistrarProcess) is embedded as an explicit state machine: its
asynchronous interactions (the recovery fetch and the compare-and-swap store
of the versioned state backend) are driven by an event trace, and the
resolutions of the caller-visible futures are emitted as observations.
-/

/-- Identity of a resource provider (protobuf message ResourceProviderID,
holding one string value). -/
structure ResourceProviderID where
  value : String
deriving DecidableEq, Repr

/-- A registry record (protobuf message ResourceProvider); this core only
ever reads and writes its identity field. -/
structure ResourceProvider where
  id : ResourceProviderID
deriving DecidableEq, Repr

/-- The persisted registry: a repeated field of ResourceProvider records. -/
structure Registry where
  resource_providers : List ResourceProvider
deriving DecidableEq, Repr

/-- A default-constructed (empty) registry. -/
def emptyRegistry : Registry := { resource_providers := [] }

/-- The identities held by a registry, in record order. -/
def idsOf (registry : Registry) : List ResourceProviderID :=
  registry.resource_providers.map (fun resourceProvider => resourceProvider.id)

structure AdmitResourceProvider where
  id : ResourceProviderID
deriving DecidableEq, Repr

structure RemoveResourceProvider where
  id : ResourceProviderID
deriving DecidableEq, Repr

/-- AdmitResourceProvider.perform: if a record with the given identity is
already present, return an error without mutating; otherwise append a new
record carrying the identity and return true. -/
def AdmitResourceProvider.perform (op : AdmitResourceProvider)
    (registry : Registry) : Except String Bool × Registry :=
  if registry.resource_providers.any
      (fun resourceProvider => decide (resourceProvider.id = op.id)) then
    (Except.error "Resource provider already admitted", registry)
  else
    (Except.ok true,
     { registry with
         resource_providers := registry.resource_providers ++ [{ id := op.id }] })

/-- RemoveResourceProvider.perform: if no record with the given identity is
present, return an error without mutating; otherwise erase the first record
with that identity (the position found by the linear scan) and return true. -/
def RemoveResourceProvider.perform (op : RemoveResourceProvider)
    (registry : Registry) : Except String Bool × Registry :=
  if registry.resource_providers.any
      (fun resourceProvider => decide (resourceProvider.id = op.id)) then
    (Except.ok true,
     { registry with
         resource_providers :=
           registry.resource_providers.eraseP
             (fun resourceProvider => decide (resourceProvider.id = op.id)) })
  else
    (Except.error "Attempted to remove an unknown resource provider", registry)

/-- The closed set of registrar operations appearing in this translation
unit. -/
inductive Operation
  | admitRP (op : AdmitResourceProvider)
  | remove (op : RemoveResourceProvider)
deriving DecidableEq, Repr

/-- Dispatch of Registrar.Operation.perform to the concrete operation. -/
def Operation.perform : Operation → Registry → Except String Bool × Registry
  | Operation.admitRP a, registry => a.perform registry
  | Operation.remove r, registry => r.perform registry

/-- The success flag recorded by Registrar.Operation.operator(): true exactly
when perform did not return an error. -/
def succeeded : Except String Bool → Bool
  | Except.ok _ => true
  | Except.error _ => false

deriving instance DecidableEq for Except

/-! ## The GenericRegistrarProcess actor

The actor owns: the recovery future (whether recover was invoked, and whether
the storage fetch has completed), the in-memory registry, the versioned
handle (Variable) of the storage backend, the sticky error, the deque of
pending operations, and the updating flag.  The updating flag together with
the arguments captured by the in-flight store continuation are modelled as
the inflight field.  Futures returned to callers are identified by the
numeric tag given at submission; their resolutions are emitted as
observations. -/

/-- Completion of the store future issued by a batch commit: ready with an
updated handle, failed with a message, discarded, or ready with no handle
(the compare-and-swap version conflict). -/
inductive StoreOutcome
  | ok (v : Nat)
  | failed (msg : String)
  | discarded
  | conflict
deriving DecidableEq, Repr

/-- Resolution of the caller-visible future of one submitted operation. -/
inductive OpOutcome
  | resolved (b : Bool)
  | failed (msg : String)
deriving DecidableEq, Repr

/-- Observable events emitted by the actor: a future resolution, or a
successful commit recording the registry that the store wrote durably
together with the batch of operations that produced it. -/
inductive Obs
  | outcome (tag : Nat) (result : OpOutcome)
  | committed (stored : Registry) (batch : List Operation)
deriving DecidableEq, Repr

/-- The state of a GenericRegistrarProcess. -/
structure ActorState where
  recoveredCalled : Bool
  recoveryDone : Bool
  registry : Option Registry
  varVersion : Option Nat
  error : Option String
  waiting : List (Nat × Operation)
  pending : List (Nat × Operation)
  inflight : Option (Registry × List (Nat × Operation × Bool))
deriving DecidableEq, Repr

/-- The state of a freshly constructed GenericRegistrarProcess. -/
def initState : ActorState :=
  { recoveredCalled := false, recoveryDone := false, registry := none,
    varVersion := none, error := none, waiting := [], pending := [],
    inflight := none }

/-- The foreach loop of GenericRegistrarProcess.update: apply every queued
operation to the working snapshot in arrival order, recording for each the
success flag set by Registrar.Operation.operator(). -/
def applyBatch (registry : Registry) :
    List (Nat × Operation) → Registry × List (Nat × Operation × Bool)
  | [] => (registry, [])
  | x :: rest =>
    let r1 := x.2.perform registry
    let r2 := applyBatch r1.2 rest
    (r2.1, (x.1, x.2, succeeded r1.1) :: r2.2)

/-- GenericRegistrarProcess.update: no-op on an empty queue; otherwise take a
snapshot of the current registry, apply all queued operations to it, issue
the store of the result (the inflight field records the store arguments),
and clear the queue. -/
def GenericRegistrarProcess.update (s : ActorState) : ActorState :=
  if s.pending.isEmpty then s
  else
    match s.registry with
    | none => s
    | some registry =>
      let result := applyBatch registry s.pending
      { s with inflight := some (result.1, result.2), pending := [] }

/-- The message built by GenericRegistrarProcess._update when the store did
not succeed. -/
def failureMessage (store : StoreOutcome) : String :=
  "Failed to update registry: " ++
    match store with
    | StoreOutcome.failed msg => msg
    | StoreOutcome.discarded => "discarded"
    | _ => "version mismatch"

/-- GenericRegistrarProcess._update: clear the updating flag; if the store
did not succeed, fail every operation of the applied batch with the failure
message and record it as the sticky error; otherwise install the new handle
and registry, signal every applied operation with its recorded success flag,
and start a new batch if more operations queued meanwhile. -/
def GenericRegistrarProcess._update (s : ActorState) (store : StoreOutcome)
    (updatedRegistry : Registry) (applied : List (Nat × Operation × Bool)) :
    ActorState × List Obs :=
  let s0 := { s with inflight := none }
  match store with
  | StoreOutcome.ok v =>
    let s1 := { s0 with varVersion := some v, registry := some updatedRegistry }
    (GenericRegistrarProcess.update s1,
     Obs.committed updatedRegistry (applied.map (fun x => x.2.1)) ::
       applied.map (fun x => Obs.outcome x.1 (OpOutcome.resolved x.2.2)))
  | _ =>
    let message := failureMessage store
    ({ s0 with error := some message },
     applied.map (fun x => Obs.outcome x.1 (OpOutcome.failed message)))

/-- GenericRegistrarProcess._apply: if the sticky error is set, fail the
caller future with it; otherwise append the operation to the queue and, when
no batch is in flight, start one. -/
def GenericRegistrarProcess._apply (s : ActorState) (tag : Nat)
    (op : Operation) : ActorState × List Obs :=
  match s.error with
  | some e => (s, [Obs.outcome tag (OpOutcome.failed e)])
  | none =>
    let s1 := { s with pending := s.pending ++ [(tag, op)] }
    match s1.inflight with
    | none => (GenericRegistrarProcess.update s1, [])
    | some _ => (s1, [])

/-- GenericRegistrarProcess.apply: fail immediately when recover has not
been invoked; when recovery is still in flight, defer the call until the
recovery future resolves; otherwise run _apply. -/
def GenericRegistrarProcess.apply (s : ActorState) (tag : Nat)
    (op : Operation) : ActorState × List Obs :=
  if s.recoveredCalled then
    if s.recoveryDone then GenericRegistrarProcess._apply s tag op
    else ({ s with waiting := s.waiting ++ [(tag, op)] }, [])
  else
    (s, [Obs.outcome tag
          (OpOutcome.failed "Attempted to apply the operation before recovering")])

/-- Run the deferred _apply continuations of the apply calls that arrived
while recovery was in flight, in arrival order. -/
def flushWaiting : ActorState → List (Nat × Operation) → ActorState × List Obs
  | s, [] => (s, [])
  | s, x :: rest =>
    let r1 := GenericRegistrarProcess._apply s x.1 x.2
    let r2 := flushWaiting r1.1 rest
    (r2.1, r1.2 ++ r2.2)

/-- External stimuli driving the actor: a recover call, the completion of
the recovery fetch (with the fetched registry and handle version), an apply
call (with a fresh tag identifying the returned future), and the completion
of the in-flight store. -/
inductive Event
  | recover
  | recoveryComplete (fetched : Registry) (v : Nat)
  | submit (tag : Nat) (op : Operation)
  | storeResult (store : StoreOutcome)
deriving DecidableEq, Repr

/-- One actor step.  recover is idempotent; the recovery completion installs
the fetched snapshot and handle and then runs the deferred apply calls; a
store completion is meaningful only while a batch is in flight. -/
def step (s : ActorState) : Event → ActorState × List Obs
  | Event.recover =>
    if s.recoveredCalled then (s, []) else ({ s with recoveredCalled := true }, [])
  | Event.recoveryComplete fetched v =>
    if s.recoveredCalled && !s.recoveryDone then
      let s1 : ActorState :=
        { s with
            recoveryDone := true
            registry := some fetched
            varVersion := some v
            waiting := [] }
      flushWaiting s1 s.waiting
    else (s, [])
  | Event.submit tag op => GenericRegistrarProcess.apply s tag op
  | Event.storeResult store =>
    match s.inflight with
    | none => (s, [])
    | some p => GenericRegistrarProcess._update s store p.1 p.2

/-- Run a trace of events, concatenating the emitted observations. -/
def run (s : ActorState) : List Event → ActorState × List Obs
  | [] => (s, [])
  | e :: t =>
    let r1 := step s e
    let r2 := run r1.1 t
    (r2.1, r1.2 ++ r2.2)

/-! ## Derived notions used by the theorems -/

/-- Fold a registry through the perform of each operation in order; this is
what the foreach loop of update computes on the snapshot. -/
def applyOps (ops : List Operation) (registry : Registry) : Registry :=
  ops.foldl (fun acc op => (op.perform acc).2) registry

/-- Spec-side replay of one operation against a set of identities, following
the words of the spec: an Admit of a present identity and a Remove of an
absent identity are errors and contribute nothing; otherwise Admit inserts
the identity and Remove deletes it.  This definition is written from the
spec (for the refinement claim C1), to be compared with the fold of the
perform functions taken from the source. -/
def specReplayStep (ids : List ResourceProviderID) :
    Operation → List ResourceProviderID
  | Operation.admitRP a => if a.id ∈ ids then ids else ids ++ [a.id]
  | Operation.remove r => if r.id ∈ ids then ids.erase r.id else ids

/-- Spec-side replay of a whole sequence of operations. -/
def specReplayIds (ids : List ResourceProviderID) :
    List Operation → List ResourceProviderID
  | [] => ids
  | op :: rest => specReplayIds (specReplayStep ids op) rest

theorem applyOps_append (l₁ l₂ : List Operation) (r : Registry) :
    applyOps (l₁ ++ l₂) r = applyOps l₂ (applyOps l₁ r) := by
  simp [applyOps, List.foldl_append]

theorem specReplayIds_append (l₁ l₂ : List Operation)
    (ids : List ResourceProviderID) :
    specReplayIds ids (l₁ ++ l₂) = specReplayIds (specReplayIds ids l₁) l₂ := by
  induction l₁ generalizing ids with
  | nil => rfl
  | cons op rest ih => simp [specReplayIds, ih]

theorem erase_eq_eraseP_dec (i : ResourceProviderID)
    (l : List ResourceProviderID) :
    l.erase i = l.eraseP (fun x => decide (x = i)) := by
  induction l with
  | nil => rfl
  | cons a t ih =>
    by_cases h : a = i
    · simp [List.erase_cons, List.eraseP_cons, h]
    · simp [List.erase_cons, List.eraseP_cons, h, ih]

/-- The scan of the perform functions finds a record exactly when the
identity is among the identities of the registry. -/
theorem any_id_iff_mem (r : Registry) (i : ResourceProviderID) :
    (r.resource_providers.any fun rp => decide (rp.id = i)) = true ↔
      i ∈ idsOf r := by
  simp [List.any_eq_true, idsOf, List.mem_map]

theorem any_id_false (r : Registry) (i : ResourceProviderID)
    (h : i ∉ idsOf r) :
    (r.resource_providers.any fun rp => decide (rp.id = i)) = false := by
  rcases Bool.eq_false_or_eq_true
      (r.resource_providers.any fun rp => decide (rp.id = i)) with ht | hf
  · exact absurd ((any_id_iff_mem r i).mp ht) h
  · exact hf

/-- The identities left by one perform are the spec-side replay of that
operation on the identities of the input registry. -/
theorem idsOf_perform (op : Operation) (r : Registry) :
    idsOf (op.perform r).2 = specReplayStep (idsOf r) op := by
  cases op with
  | admitRP a =>
    simp only [Operation.perform, AdmitResourceProvider.perform, specReplayStep]
    by_cases h : a.id ∈ idsOf r
    · rw [if_pos h, (any_id_iff_mem r a.id).mpr h]
      simp
    · rw [if_neg h, any_id_false r a.id h]
      simp [idsOf]
  | remove rm =>
    simp only [Operation.perform, RemoveResourceProvider.perform, specReplayStep]
    by_cases h : rm.id ∈ idsOf r
    · rw [if_pos h, (any_id_iff_mem r rm.id).mpr h, erase_eq_eraseP_dec]
      simp only [if_true]
      simpa [idsOf, Function.comp] using
        (List.eraseP_map (p := fun x : ResourceProviderID => decide (x = rm.id))
          (fun rp : ResourceProvider => rp.id) r.resource_providers).symm
    · rw [if_neg h, any_id_false r rm.id h]
      simp

/-- Folding perform over a sequence tracks the spec-side replay. -/
theorem idsOf_applyOps (ops : List Operation) (r : Registry) :
    idsOf (applyOps ops r) = specReplayIds (idsOf r) ops := by
  induction ops generalizing r with
  | nil => rfl
  | cons op rest ih =>
    calc idsOf (applyOps (op :: rest) r)
        = idsOf (applyOps rest (op.perform r).2) := by simp [applyOps]
      _ = specReplayIds (idsOf (op.perform r).2) rest := ih _
      _ = specReplayIds (specReplayStep (idsOf r) op) rest := by
            rw [idsOf_perform]
      _ = specReplayIds (idsOf r) (op :: rest) := rfl

/-! ## Claims about the concrete operations -/

/-- C2: for every registry and identity, AdmitResourceProvider.perform
returns the already-admitted error and leaves the registry unchanged when a
record with that identity is present, and otherwise appends a new record
carrying that identity and returns true. -/
theorem admit_perform_spec (registry : Registry) (op : AdmitResourceProvider) :
    ((∃ rp ∈ registry.resource_providers, rp.id = op.id) →
        op.perform registry
          = (Except.error "Resource provider already admitted", registry))
    ∧ ((∀ rp ∈ registry.resource_providers, rp.id ≠ op.id) →
        op.perform registry
          = (Except.ok true,
             { registry with
                 resource_providers :=
                   registry.resource_providers ++ [{ id := op.id }] })) := by
  constructor
  · rintro ⟨rp, hmem, hid⟩
    have hany : (registry.resource_providers.any
        fun rp => decide (rp.id = op.id)) = true :=
      (any_id_iff_mem registry op.id).mpr (List.mem_map.mpr ⟨rp, hmem, hid⟩)
    rw [AdmitResourceProvider.perform, hany]
    simp
  · intro h
    have hnot : op.id ∉ idsOf registry := by
      intro hmm
      rcases List.mem_map.mp hmm with ⟨rp, hmem, hid⟩
      exact h rp hmem hid
    rw [AdmitResourceProvider.perform, any_id_false registry op.id hnot]
    simp

/-- Registry holding the single provider identity a, used by witnesses. -/
def regA : Registry := { resource_providers := [{ id := { value := "a" } }] }

theorem admit_perform_spec_witness :
    AdmitResourceProvider.perform { id := { value := "a" } } regA
      = (Except.error "Resource provider already admitted", regA)
    ∧ AdmitResourceProvider.perform { id := { value := "b" } } regA
      = (Except.ok true,
         { resource_providers :=
             [{ id := { value := "a" } }, { id := { value := "b" } }] }) :=
  ⟨(admit_perform_spec regA { id := { value := "a" } }).1
      ⟨{ id := { value := "a" } }, by decide, rfl⟩,
   (admit_perform_spec regA { id := { value := "b" } }).2 (by decide)⟩

/-- C3: for every registry and identity, RemoveResourceProvider.perform
returns the unknown-resource-provider error and leaves the registry
unchanged when no record with that identity is present, and otherwise
removes the first matching record and returns true. -/
theorem remove_perform_spec (registry : Registry) (op : RemoveResourceProvider) :
    ((∀ rp ∈ registry.resource_providers, rp.id ≠ op.id) →
        op.perform registry
          = (Except.error "Attempted to remove an unknown resource provider",
             registry))
    ∧ (∀ (l₁ : List ResourceProvider) (rp : ResourceProvider)
          (l₂ : List ResourceProvider),
        registry.resource_providers = l₁ ++ rp :: l₂ →
        rp.id = op.id →
        (∀ rp2 ∈ l₁, rp2.id ≠ op.id) →
        op.perform registry
          = (Except.ok true, { registry with resource_providers := l₁ ++ l₂ })) := by
  constructor
  · intro h
    have hnot : op.id ∉ idsOf registry := by
      intro hmm
      rcases List.mem_map.mp hmm with ⟨rp, hmem, hid⟩
      exact h rp hmem hid
    rw [RemoveResourceProvider.perform, any_id_false registry op.id hnot]
    simp
  · intro l₁ rp l₂ hsplit hid hleft
    have hrpmem : rp ∈ registry.resource_providers := by
      rw [hsplit]
      exact List.mem_append_right l₁ (List.mem_cons_self rp l₂)
    have hany : (registry.resource_providers.any
        fun rp => decide (rp.id = op.id)) = true :=
      (any_id_iff_mem registry op.id).mpr (List.mem_map.mpr ⟨rp, hrpmem, hid⟩)
    have herase : registry.resource_providers.eraseP
        (fun rp => decide (rp.id = op.id)) = l₁ ++ l₂ := by
      rw [hsplit, List.eraseP_append_right _
        (by intro b hb; simpa using hleft b hb)]
      rw [List.eraseP_cons_of_pos (by simpa using hid)]
    rw [RemoveResourceProvider.perform, hany]
    simp [herase]

theorem remove_perform_spec_witness :
    RemoveResourceProvider.perform { id := { value := "b" } } regA
      = (Except.error "Attempted to remove an unknown resource provider", regA)
    ∧ RemoveResourceProvider.perform { id := { value := "a" } } regA
      = (Except.ok true, { resource_providers := [] }) :=
  ⟨(remove_perform_spec regA { id := { value := "b" } }).1 (by decide),
   (remove_perform_spec regA { id := { value := "a" } }).2
      [] { id := { value := "a" } } [] rfl rfl (by decide)⟩

/-- C8: both perform functions preserve the invariant that no two records
share the same identity. -/
theorem uniqueness_invariant_preserved (registry : Registry) (op : Operation)
    (h : (idsOf registry).Nodup) : (idsOf (op.perform registry).2).Nodup := by
  rw [idsOf_perform]
  cases op with
  | admitRP a =>
    by_cases hm : a.id ∈ idsOf registry
    · simpa [specReplayStep, hm] using h
    · rw [specReplayStep, if_neg hm, List.nodup_append]
      refine ⟨h, List.nodup_singleton _, ?_⟩
      intro x hx hx1
      rw [List.mem_singleton] at hx1
      exact hm (hx1 ▸ hx)
  | remove rm =>
    by_cases hm : rm.id ∈ idsOf registry
    · simpa [specReplayStep, hm] using h.erase rm.id
    · simpa [specReplayStep, hm] using h

theorem uniqueness_invariant_preserved_witness :
    (idsOf ((Operation.admitRP { id := { value := "b" } }).perform regA).2).Nodup :=
  uniqueness_invariant_preserved regA (Operation.admitRP { id := { value := "b" } })
    (by decide)

/-! ## Lemmas about the batch application loop -/

theorem applyBatch_fst (registry : Registry) (l : List (Nat × Operation)) :
    (applyBatch registry l).1 = applyOps (l.map fun x => x.2) registry := by
  induction l generalizing registry with
  | nil => rfl
  | cons x rest ih => simp [applyBatch, applyOps, ih]

theorem applyBatch_tags (registry : Registry) (l : List (Nat × Operation)) :
    (applyBatch registry l).2.map (fun x => (x.1, x.2.1)) = l := by
  induction l generalizing registry with
  | nil => rfl
  | cons x rest ih => simp [applyBatch, ih]

theorem applyBatch_ops (registry : Registry) (l : List (Nat × Operation)) :
    (applyBatch registry l).2.map (fun x => x.2.1) = l.map fun x => x.2 := by
  induction l generalizing registry with
  | nil => rfl
  | cons x rest ih => simp [applyBatch, ih]

theorem applyBatch_length (registry : Registry) (l : List (Nat × Operation)) :
    (applyBatch registry l).2.length = l.length := by
  have h := congrArg List.length (applyBatch_tags registry l)
  simpa using h

theorem applyBatch_append (registry : Registry) (l₁ l₂ : List (Nat × Operation)) :
    applyBatch registry (l₁ ++ l₂)
      = ((applyBatch (applyBatch registry l₁).1 l₂).1,
         (applyBatch registry l₁).2 ++ (applyBatch (applyBatch registry l₁).1 l₂).2) := by
  induction l₁ generalizing registry with
  | nil => simp [applyBatch]
  | cons x rest ih => simp [applyBatch, ih]

/-- An erroring perform leaves the registry unchanged. -/
theorem perform_error_frame (op : Operation) (r : Registry)
    (h : succeeded (op.perform r).1 = false) : (op.perform r).2 = r := by
  cases op with
  | admitRP a =>
    rcases Bool.eq_false_or_eq_true
        (r.resource_providers.any fun rp => decide (rp.id = a.id)) with hb | hb
    · simp [Operation.perform, AdmitResourceProvider.perform, hb]
    · simp [Operation.perform, AdmitResourceProvider.perform, hb, succeeded] at h
  | remove rm =>
    rcases Bool.eq_false_or_eq_true
        (r.resource_providers.any fun rp => decide (rp.id = rm.id)) with hb | hb
    · simp [Operation.perform, RemoveResourceProvider.perform, hb, succeeded] at h
    · simp [Operation.perform, RemoveResourceProvider.perform, hb]

/-- A successful perform changes the registry (Admit appends a record,
Remove erases one). -/
theorem perform_ok_mutates (op : Operation) (r : Registry)
    (h : succeeded (op.perform r).1 = true) : (op.perform r).2 ≠ r := by
  cases op with
  | admitRP a =>
    rcases Bool.eq_false_or_eq_true
        (r.resource_providers.any fun rp => decide (rp.id = a.id)) with hb | hb
    · simp [Operation.perform, AdmitResourceProvider.perform, hb, succeeded] at h
    · intro heq
      have hlen := congrArg (fun reg : Registry => reg.resource_providers.length) heq
      simp [Operation.perform, AdmitResourceProvider.perform, hb] at hlen
  | remove rm =>
    rcases Bool.eq_false_or_eq_true
        (r.resource_providers.any fun rp => decide (rp.id = rm.id)) with hb | hb
    · intro heq
      rcases List.any_eq_true.mp hb with ⟨rp, hmem, hp⟩
      have hone := List.length_eraseP_add_one
        (p := fun rp : ResourceProvider => decide (rp.id = rm.id)) hmem hp
      have hlen := congrArg (fun reg : Registry => reg.resource_providers.length) heq
      simp [Operation.perform, RemoveResourceProvider.perform, hb] at hlen
      omega
    · simp [Operation.perform, RemoveResourceProvider.perform, hb, succeeded] at h

/-- An erroring perform has an error message. -/
theorem succeeded_false_error (e : Except String Bool)
    (h : succeeded e = false) : ∃ msg, e = Except.error msg := by
  cases e with
  | ok b => simp [succeeded] at h
  | error msg => exact ⟨msg, rfl⟩

/-! ## Claims about the batch commit path -/

/-- C9: a failing operation does not abort its batch: update applies every
queued operation to the snapshot copy in arrival order (the success flag of
each operation is independent, and an erroring perform leaves the snapshot
unchanged, so a failing operation only omits its own mutation), then issues
its single store of the resulting snapshot and clears the queue. -/
theorem batch_commit_not_aborted (s : ActorState) (r : Registry)
    (hreg : s.registry = some r) (hne : s.pending ≠ []) :
    (GenericRegistrarProcess.update s).inflight
        = some (applyOps (s.pending.map fun x => x.2) r, (applyBatch r s.pending).2)
    ∧ (GenericRegistrarProcess.update s).pending = []
    ∧ (applyBatch r s.pending).2.map (fun x => (x.1, x.2.1)) = s.pending
    ∧ (∀ (op : Operation) (reg : Registry),
        succeeded (op.perform reg).1 = false → (op.perform reg).2 = reg) := by
  have hemp : s.pending.isEmpty = false := by
    cases hp : s.pending with
    | nil => exact absurd hp hne
    | cons a t => rfl
  refine ⟨?_, ?_, applyBatch_tags r s.pending,
    fun op reg h => perform_error_frame op reg h⟩
  · simp [GenericRegistrarProcess.update, hemp, hreg, applyBatch_fst]
  · simp [GenericRegistrarProcess.update, hemp, hreg]

/-- Concrete operations used by witnesses and counterexamples. -/
def admitA : Operation := Operation.admitRP { id := { value := "a" } }

def admitB : Operation := Operation.admitRP { id := { value := "b" } }

def admitC : Operation := Operation.admitRP { id := { value := "c" } }

/-- A ready actor with two queued admits of the same identity: the second
perform fails inside the batch. -/
def sBatch : ActorState :=
  { recoveredCalled := true, recoveryDone := true, registry := some emptyRegistry,
    varVersion := some 0, error := none, waiting := [],
    pending := [(0, admitA), (1, admitA)], inflight := none }

theorem batch_commit_not_aborted_witness :
    (GenericRegistrarProcess.update sBatch).inflight
        = some (applyOps (sBatch.pending.map fun x => x.2) emptyRegistry,
                (applyBatch emptyRegistry sBatch.pending).2)
    ∧ (GenericRegistrarProcess.update sBatch).pending = []
    ∧ (applyBatch emptyRegistry sBatch.pending).2.map (fun x => (x.1, x.2.1))
        = sBatch.pending
    ∧ (admitA.perform regA).2 = regA :=
  ⟨(batch_commit_not_aborted sBatch emptyRegistry rfl (by decide)).1,
   (batch_commit_not_aborted sBatch emptyRegistry rfl (by decide)).2.1,
   (batch_commit_not_aborted sBatch emptyRegistry rfl (by decide)).2.2.1,
   (batch_commit_not_aborted sBatch emptyRegistry rfl (by decide)).2.2.2
     admitA regA (by decide)⟩

theorem update_registry_eq (s : ActorState) :
    (GenericRegistrarProcess.update s).registry = s.registry := by
  rw [GenericRegistrarProcess.update]
  split
  · rfl
  · split <;> rfl

theorem update_varVersion_eq (s : ActorState) :
    (GenericRegistrarProcess.update s).varVersion = s.varVersion := by
  rw [GenericRegistrarProcess.update]
  split
  · rfl
  · split <;> rfl

theorem update_error_eq (s : ActorState) :
    (GenericRegistrarProcess.update s).error = s.error := by
  rw [GenericRegistrarProcess.update]
  split
  · rfl
  · split <;> rfl

/-- C5: when the store of a batch fails, is discarded, or reports a version
conflict (no updated handle), every operation of the applied batch is failed
with the message built from "Failed to update registry: " and, respectively,
the underlying failure message, "discarded", or "version mismatch", and the
same message is recorded as the terminal error of the actor. -/
theorem commit_failure_messages (s : ActorState) (snap : Registry)
    (applied : List (Nat × Operation × Bool))
    (h : s.inflight = some (snap, applied)) :
    (∀ msg,
      (step s (Event.storeResult (StoreOutcome.failed msg))).2
        = applied.map (fun x => Obs.outcome x.1
            (OpOutcome.failed ("Failed to update registry: " ++ msg)))
      ∧ (step s (Event.storeResult (StoreOutcome.failed msg))).1.error
        = some ("Failed to update registry: " ++ msg))
    ∧ ((step s (Event.storeResult StoreOutcome.discarded)).2
        = applied.map (fun x => Obs.outcome x.1
            (OpOutcome.failed "Failed to update registry: discarded"))
      ∧ (step s (Event.storeResult StoreOutcome.discarded)).1.error
        = some "Failed to update registry: discarded")
    ∧ ((step s (Event.storeResult StoreOutcome.conflict)).2
        = applied.map (fun x => Obs.outcome x.1
            (OpOutcome.failed "Failed to update registry: version mismatch"))
      ∧ (step s (Event.storeResult StoreOutcome.conflict)).1.error
        = some "Failed to update registry: version mismatch") := by
  have hdisc : ("Failed to update registry: " ++ "discarded" : String)
      = "Failed to update registry: discarded" := rfl
  have hconf : ("Failed to update registry: " ++ "version mismatch" : String)
      = "Failed to update registry: version mismatch" := rfl
  refine ⟨fun msg => ⟨?_, ?_⟩, ⟨?_, ?_⟩, ⟨?_, ?_⟩⟩ <;>
    simp [step, h, GenericRegistrarProcess._update, failureMessage, hdisc, hconf]

/-- A ready actor with a batch in flight, used by witnesses: the in-flight
store carries the snapshot regA for the batch holding the single Admit of a. -/
def sInflight : ActorState :=
  { recoveredCalled := true, recoveryDone := true, registry := some emptyRegistry,
    varVersion := some 0, error := none, waiting := [],
    pending := [], inflight := some (regA, [(0, admitA, true)]) }

theorem commit_failure_messages_witness :
    ((step sInflight (Event.storeResult (StoreOutcome.failed "boom"))).2
        = [(0, admitA, true)].map (fun x => Obs.outcome x.1
            (OpOutcome.failed ("Failed to update registry: " ++ "boom")))
      ∧ (step sInflight (Event.storeResult (StoreOutcome.failed "boom"))).1.error
        = some ("Failed to update registry: " ++ "boom"))
    ∧ ((step sInflight (Event.storeResult StoreOutcome.discarded)).2
        = [(0, admitA, true)].map (fun x => Obs.outcome x.1
            (OpOutcome.failed "Failed to update registry: discarded"))
      ∧ (step sInflight (Event.storeResult StoreOutcome.discarded)).1.error
        = some "Failed to update registry: discarded")
    ∧ ((step sInflight (Event.storeResult StoreOutcome.conflict)).2
        = [(0, admitA, true)].map (fun x => Obs.outcome x.1
            (OpOutcome.failed "Failed to update registry: version mismatch"))
      ∧ (step sInflight (Event.storeResult StoreOutcome.conflict)).1.error
        = some "Failed to update registry: version mismatch") :=
  ⟨(commit_failure_messages sInflight regA [(0, admitA, true)] rfl).1 "boom",
   (commit_failure_messages sInflight regA [(0, admitA, true)] rfl).2.1,
   (commit_failure_messages sInflight regA [(0, admitA, true)] rfl).2.2⟩

/-- C10: on a failed, discarded, or conflicting store the actor keeps its
pre-batch in-memory registry, versioned handle and queue, records only the
sticky error and clears the updating flag; the new snapshot and handle are
installed exactly on the success path. -/
theorem commit_failure_frame (s : ActorState) (snap : Registry)
    (applied : List (Nat × Operation × Bool))
    (h : s.inflight = some (snap, applied)) :
    (∀ store : StoreOutcome, (∀ v, store ≠ StoreOutcome.ok v) →
      (step s (Event.storeResult store)).1
        = { s with inflight := none, error := some (failureMessage store) })
    ∧ (∀ v,
        (step s (Event.storeResult (StoreOutcome.ok v))).1.registry = some snap
        ∧ (step s (Event.storeResult (StoreOutcome.ok v))).1.varVersion = some v
        ∧ (step s (Event.storeResult (StoreOutcome.ok v))).1.error = s.error) := by
  constructor
  · intro store hstore
    cases store with
    | ok v => exact absurd rfl (hstore v)
    | failed msg => simp [step, h, GenericRegistrarProcess._update, failureMessage]
    | discarded => simp [step, h, GenericRegistrarProcess._update, failureMessage]
    | conflict => simp [step, h, GenericRegistrarProcess._update, failureMessage]
  · intro v
    refine ⟨?_, ?_, ?_⟩ <;>
      simp [step, h, GenericRegistrarProcess._update, update_registry_eq,
        update_varVersion_eq, update_error_eq]

theorem commit_failure_frame_witness :
    (step sInflight (Event.storeResult StoreOutcome.conflict)).1
      = { sInflight with
            inflight := none
            error := some (failureMessage StoreOutcome.conflict) }
    ∧ ((step sInflight (Event.storeResult (StoreOutcome.ok 7))).1.registry
        = some regA
      ∧ (step sInflight (Event.storeResult (StoreOutcome.ok 7))).1.varVersion
        = some 7
      ∧ (step sInflight (Event.storeResult (StoreOutcome.ok 7))).1.error
        = sInflight.error) :=
  ⟨(commit_failure_frame sInflight regA [(0, admitA, true)] rfl).1
      StoreOutcome.conflict (fun _ hv => StoreOutcome.noConfusion hv),
   (commit_failure_frame sInflight regA [(0, admitA, true)] rfl).2 7⟩

/-! ## Claims about the recovery gate and future resolution -/

/-- C7 counterexample: an apply call issued after recover() was invoked but
before the recovery future resolved is not failed immediately: the run emits
no outcome and the call is deferred on the recovery future. -/
theorem apply_before_recovery_resolved_not_failed :
    (run initState [Event.recover, Event.submit 0 admitA]).2 = []
    ∧ (run initState [Event.recover, Event.submit 0 admitA]).1.waiting
      = [(0, admitA)] := by
  constructor <;> rfl

/-- C7 amended: an apply call fails immediately with the precondition error,
leaving the actor state unchanged, exactly when recover() has not been
invoked; a call made after recover() was invoked but before the recovery
future resolved is deferred without an immediate failure; and once recovery
resolved a subsequent apply of the same operation proceeds normally
(concretely: after recovering an empty registry, an Admit commits and its
future resolves true). -/
theorem apply_recovery_gating (s : ActorState) (tag : Nat) (op : Operation) :
    (s.recoveredCalled = false →
      step s (Event.submit tag op)
        = (s, [Obs.outcome tag (OpOutcome.failed
            "Attempted to apply the operation before recovering")]))
    ∧ (s.recoveredCalled = true → s.recoveryDone = false →
      step s (Event.submit tag op)
        = ({ s with waiting := s.waiting ++ [(tag, op)] }, []))
    ∧ (run initState
        [Event.recover, Event.recoveryComplete emptyRegistry 0,
         Event.submit 0 admitA, Event.storeResult (StoreOutcome.ok 1)]).2
        = [Obs.committed regA [admitA], Obs.outcome 0 (OpOutcome.resolved true)] := by
  refine ⟨fun h => ?_, fun h1 h2 => ?_, by rfl⟩
  · simp [step, GenericRegistrarProcess.apply, h]
  · simp [step, GenericRegistrarProcess.apply, h1, h2]

theorem apply_recovery_gating_witness :
    step initState (Event.submit 3 admitB)
      = (initState, [Obs.outcome 3 (OpOutcome.failed
          "Attempted to apply the operation before recovering")])
    ∧ step { initState with recoveredCalled := true } (Event.submit 3 admitB)
      = ({ initState with recoveredCalled := true, waiting := [(3, admitB)] }, []) :=
  ⟨(apply_recovery_gating initState 3 admitB).1 rfl,
   (apply_recovery_gating { initState with recoveredCalled := true } 3 admitB).2.1
      rfl rfl⟩

/-- C4 counterexample: admitting the same identity in two successive
successful commits; the future of the second (duplicate) Admit resolves to
the value false instead of failing with a duplicate-identity error, because
Operation.set resolves the promise with the recorded success flag and the
perform error is only logged. -/
theorem duplicate_admit_resolves_false :
    (run initState
      [Event.recover, Event.recoveryComplete emptyRegistry 5,
       Event.submit 0 admitA, Event.storeResult (StoreOutcome.ok 6),
       Event.submit 1 admitA, Event.storeResult (StoreOutcome.ok 7)]).2.filter
      (fun o => match o with | Obs.outcome 1 _ => true | _ => false)
      = [Obs.outcome 1 (OpOutcome.resolved false)] := by rfl

/-- C4 amended: for every operation of a batch whose commit succeeds, the
future resolves to the success flag of its perform on the snapshot as of its
turn: true when perform succeeded, and then the operation mutated the
snapshot; false when perform returned a domain-rejection error, and then the
snapshot is unchanged at its turn.  A domain rejection therefore resolves
the future to false; the future fails only on the commit path. -/
theorem commit_success_resolution (s : ActorState) (r : Registry)
    (l₁ l₂ : List (Nat × Operation)) (tag : Nat) (op : Operation) (v : Nat)
    (hreg : s.registry = some r) (hpend : s.pending = l₁ ++ (tag, op) :: l₂) :
    ∃ snap applied,
      (GenericRegistrarProcess.update s).inflight = some (snap, applied)
      ∧ (step (GenericRegistrarProcess.update s)
          (Event.storeResult (StoreOutcome.ok v))).2
        = Obs.committed snap (applied.map fun x => x.2.1)
            :: applied.map (fun x => Obs.outcome x.1 (OpOutcome.resolved x.2.2))
      ∧ applied[l₁.length]?
        = some (tag, op,
            succeeded (op.perform (applyOps (l₁.map fun x => x.2) r)).1)
      ∧ (succeeded (op.perform (applyOps (l₁.map fun x => x.2) r)).1 = true →
          (op.perform (applyOps (l₁.map fun x => x.2) r)).2
            ≠ applyOps (l₁.map fun x => x.2) r)
      ∧ (succeeded (op.perform (applyOps (l₁.map fun x => x.2) r)).1 = false →
          (op.perform (applyOps (l₁.map fun x => x.2) r)).2
            = applyOps (l₁.map fun x => x.2) r
          ∧ ∃ msg, (op.perform (applyOps (l₁.map fun x => x.2) r)).1
              = Except.error msg) := by
  have hemp : s.pending.isEmpty = false := by
    rw [hpend]
    cases l₁ <;> rfl
  have hupd : GenericRegistrarProcess.update s
      = { s with
            inflight := some ((applyBatch r s.pending).1, (applyBatch r s.pending).2)
            pending := [] } := by
    rw [GenericRegistrarProcess.update, hemp, hreg]
    simp
  refine ⟨(applyBatch r s.pending).1, (applyBatch r s.pending).2, ?_, ?_, ?_, ?_, ?_⟩
  · rw [hupd]
  · rw [hupd]
    simp [step, GenericRegistrarProcess._update]
  · rw [hpend, applyBatch_append]
    rw [List.getElem?_append_right (by rw [applyBatch_length])]
    rw [applyBatch_length, Nat.sub_self, applyBatch_fst]
    simp [applyBatch]
  · exact fun h => perform_ok_mutates op _ h
  · exact fun h => ⟨perform_error_frame op _ h, succeeded_false_error _ h⟩

theorem commit_success_resolution_witness :
    ∃ snap applied,
      (GenericRegistrarProcess.update sBatch).inflight = some (snap, applied)
      ∧ (step (GenericRegistrarProcess.update sBatch)
          (Event.storeResult (StoreOutcome.ok 9))).2
        = Obs.committed snap (applied.map fun x => x.2.1)
            :: applied.map (fun x => Obs.outcome x.1 (OpOutcome.resolved x.2.2))
      ∧ applied[[(0, admitA)].length]?
        = some (1, admitA,
            succeeded (admitA.perform (applyOps ([(0, admitA)].map fun x => x.2)
              emptyRegistry)).1)
      ∧ (succeeded (admitA.perform (applyOps ([(0, admitA)].map fun x => x.2)
            emptyRegistry)).1 = true →
          (admitA.perform (applyOps ([(0, admitA)].map fun x => x.2)
            emptyRegistry)).2
            ≠ applyOps ([(0, admitA)].map fun x => x.2) emptyRegistry)
      ∧ (succeeded (admitA.perform (applyOps ([(0, admitA)].map fun x => x.2)
            emptyRegistry)).1 = false →
          (admitA.perform (applyOps ([(0, admitA)].map fun x => x.2)
            emptyRegistry)).2
            = applyOps ([(0, admitA)].map fun x => x.2) emptyRegistry
          ∧ ∃ msg, (admitA.perform (applyOps ([(0, admitA)].map fun x => x.2)
              emptyRegistry)).1 = Except.error msg) :=
  commit_success_resolution sBatch emptyRegistry [(0, admitA)] [] 1 admitA 9
    rfl rfl

/-! ## The sticky terminal error -/

/-- C6 counterexample: operation 1 is queued behind the in-flight batch when
the version conflict poisons the actor; the terminal error is recorded, the
batch operation 0 and the later submission 2 are failed with it, but
operation 1 receives no outcome at all: it stays in the queue and its future
is never resolved. -/
theorem pending_ops_not_failed_after_error :
    (run initState
      [Event.recover, Event.recoveryComplete emptyRegistry 0,
       Event.submit 0 admitA, Event.submit 1 admitB,
       Event.storeResult StoreOutcome.conflict,
       Event.submit 2 admitC]).1.error
      = some "Failed to update registry: version mismatch"
    ∧ (run initState
      [Event.recover, Event.recoveryComplete emptyRegistry 0,
       Event.submit 0 admitA, Event.submit 1 admitB,
       Event.storeResult StoreOutcome.conflict,
       Event.submit 2 admitC]).1.pending = [(1, admitB)]
    ∧ (run initState
      [Event.recover, Event.recoveryComplete emptyRegistry 0,
       Event.submit 0 admitA, Event.submit 1 admitB,
       Event.storeResult StoreOutcome.conflict,
       Event.submit 2 admitC]).2
      = [Obs.outcome 0
           (OpOutcome.failed "Failed to update registry: version mismatch"),
         Obs.outcome 2
           (OpOutcome.failed "Failed to update registry: version mismatch")] :=
  ⟨rfl, rfl, rfl⟩

/-- C6 amended: after the actor records a terminal commit-path error, no
further store call is ever issued and the registry, the queue and the error
are frozen; every operation submitted afterwards fails immediately with the
stored error (those are the only observations ever emitted, in particular no
commit happens), while operations already pending in the queue at failure
time remain queued forever and are never resolved. -/
theorem sticky_error_state (s : ActorState) (e : String) (t : List Event)
    (h1 : s.error = some e) (h2 : s.inflight = none)
    (h3 : s.recoveredCalled = true) (h4 : s.recoveryDone = true) :
    (run s t).1.error = some e
    ∧ (run s t).1.inflight = none
    ∧ (run s t).1.pending = s.pending
    ∧ (run s t).1.registry = s.registry
    ∧ (run s t).2 = t.filterMap (fun ev => match ev with
        | Event.submit tag _ => some (Obs.outcome tag (OpOutcome.failed e))
        | _ => none) := by
  induction t generalizing s with
  | nil => exact ⟨h1, h2, rfl, rfl, rfl⟩
  | cons ev t ih =>
    cases ev with
    | recover =>
      have hstep : step s Event.recover = (s, []) := by simp [step, h3]
      rcases ih s h1 h2 h3 h4 with ⟨e1, e2, e3, e4, e5⟩
      exact ⟨by simp [run, hstep, e1], by simp [run, hstep, e2],
        by simp [run, hstep, e3], by simp [run, hstep, e4],
        by simp [run, hstep, e5]⟩
    | recoveryComplete reg v =>
      have hstep : step s (Event.recoveryComplete reg v) = (s, []) := by
        simp [step, h4]
      rcases ih s h1 h2 h3 h4 with ⟨e1, e2, e3, e4, e5⟩
      exact ⟨by simp [run, hstep, e1], by simp [run, hstep, e2],
        by simp [run, hstep, e3], by simp [run, hstep, e4],
        by simp [run, hstep, e5]⟩
    | submit tag op =>
      have hstep : step s (Event.submit tag op)
          = (s, [Obs.outcome tag (OpOutcome.failed e)]) := by
        simp [step, GenericRegistrarProcess.apply,
          GenericRegistrarProcess._apply, h1, h3, h4]
      rcases ih s h1 h2 h3 h4 with ⟨e1, e2, e3, e4, e5⟩
      exact ⟨by simp [run, hstep, e1], by simp [run, hstep, e2],
        by simp [run, hstep, e3], by simp [run, hstep, e4],
        by simp [run, hstep, e5]⟩
    | storeResult store =>
      have hstep : step s (Event.storeResult store) = (s, []) := by
        simp [step, h2]
      rcases ih s h1 h2 h3 h4 with ⟨e1, e2, e3, e4, e5⟩
      exact ⟨by simp [run, hstep, e1], by simp [run, hstep, e2],
        by simp [run, hstep, e3], by simp [run, hstep, e4],
        by simp [run, hstep, e5]⟩

/-- A poisoned actor with the stranded operation 1 still queued, as produced
by the counterexample trace. -/
def sErr : ActorState :=
  { recoveredCalled := true, recoveryDone := true, registry := some emptyRegistry,
    varVersion := some 0,
    error := some "Failed to update registry: version mismatch",
    waiting := [], pending := [(1, admitB)], inflight := none }

theorem sticky_error_state_witness :
    (run sErr [Event.submit 5 admitC, Event.recover]).1.error
      = some "Failed to update registry: version mismatch"
    ∧ (run sErr [Event.submit 5 admitC, Event.recover]).1.inflight = none
    ∧ (run sErr [Event.submit 5 admitC, Event.recover]).1.pending = sErr.pending
    ∧ (run sErr [Event.submit 5 admitC, Event.recover]).1.registry = sErr.registry
    ∧ (run sErr [Event.submit 5 admitC, Event.recover]).2
      = [Event.submit 5 admitC, Event.recover].filterMap (fun ev => match ev with
          | Event.submit tag _ => some (Obs.outcome tag
              (OpOutcome.failed "Failed to update registry: version mismatch"))
          | _ => none) :=
  sticky_error_state sErr "Failed to update registry: version mismatch"
    [Event.submit 5 admitC, Event.recover] rfl rfl rfl rfl

/-! ## Replay correctness of the commit history -/

/-- All operations of the batches committed in an observation list,
concatenated in commit order. -/
def committedOpsOf : List Obs → List Operation
  | [] => []
  | Obs.committed _ batch :: rest => batch ++ committedOpsOf rest
  | _ :: rest => committedOpsOf rest

/-- The successful commits recorded in an observation list: each stored
registry together with the batch of operations that produced it. -/
def commitsOf : List Obs → List (Registry × List Operation)
  | [] => []
  | Obs.committed stored batch :: rest => (stored, batch) :: commitsOf rest
  | _ :: rest => commitsOf rest

/-- The operations carried by the submit events of a trace, in order. -/
def submittedOps : List Event → List Operation
  | [] => []
  | Event.submit _ op :: rest => op :: submittedOps rest
  | _ :: rest => submittedOps rest

/-- The operations of the batch currently in flight, if any. -/
def inflightOpsOf (s : ActorState) : List Operation :=
  match s.inflight with
  | none => []
  | some p => p.2.map (fun x => x.2.1)

/-- The operations still queued. -/
def pendingOpsOf (s : ActorState) : List Operation :=
  s.pending.map (fun x => x.2)

/-- The batches of a commit sequence, concatenated. -/
def commitBatchOps : List (Registry × List Operation) → List Operation
  | [] => []
  | c :: rest => c.2 ++ commitBatchOps rest

/-- Registry-level consistency of a commit sequence: each commit stores the
fold of all operations committed so far (the accumulator plus the batches up
to it, concatenated in order) applied to the empty registry. -/
def commitsCum : List Operation → List (Registry × List Operation) → Prop
  | _, [] => True
  | acc, c :: rest =>
      c.1 = applyOps (acc ++ c.2) emptyRegistry ∧ commitsCum (acc ++ c.2) rest

/-- Identity-level consistency of a commit sequence, phrased with the
spec-side replay: each commit stores exactly the identities obtained by
replaying, against the empty set, all operations committed so far. -/
def commitsSpecCum : List Operation → List (Registry × List Operation) → Prop
  | _, [] => True
  | acc, c :: rest =>
      idsOf c.1 = specReplayIds [] (acc ++ c.2) ∧ commitsSpecCum (acc ++ c.2) rest

theorem committedOpsOf_append (o₁ o₂ : List Obs) :
    committedOpsOf (o₁ ++ o₂) = committedOpsOf o₁ ++ committedOpsOf o₂ := by
  induction o₁ with
  | nil => rfl
  | cons o rest ih =>
    cases o with
    | outcome tag r => simpa [committedOpsOf] using ih
    | committed st b => simp [committedOpsOf, ih]

theorem commitsOf_append (o₁ o₂ : List Obs) :
    commitsOf (o₁ ++ o₂) = commitsOf o₁ ++ commitsOf o₂ := by
  induction o₁ with
  | nil => rfl
  | cons o rest ih =>
    cases o with
    | outcome tag r => simpa [commitsOf] using ih
    | committed st b => simp [commitsOf, ih]

theorem committedOpsOf_outcomes (l : List (Nat × Operation × Bool))
    (f : Nat × Operation × Bool → OpOutcome) :
    committedOpsOf (l.map fun x => Obs.outcome x.1 (f x)) = [] := by
  induction l with
  | nil => rfl
  | cons x rest ih => simpa [committedOpsOf] using ih

theorem commitsOf_outcomes (l : List (Nat × Operation × Bool))
    (f : Nat × Operation × Bool → OpOutcome) :
    commitsOf (l.map fun x => Obs.outcome x.1 (f x)) = [] := by
  induction l with
  | nil => rfl
  | cons x rest ih => simpa [commitsOf] using ih

theorem committedOpsOf_eq_commitBatchOps (obs : List Obs) :
    committedOpsOf obs = commitBatchOps (commitsOf obs) := by
  induction obs with
  | nil => rfl
  | cons o rest ih =>
    cases o with
    | outcome tag r => simpa [committedOpsOf, commitsOf] using ih
    | committed st b => simp [committedOpsOf, commitsOf, commitBatchOps, ih]

theorem commitsCum_append (acc : List Operation)
    (cs₁ cs₂ : List (Registry × List Operation)) (h₁ : commitsCum acc cs₁)
    (h₂ : commitsCum (acc ++ commitBatchOps cs₁) cs₂) :
    commitsCum acc (cs₁ ++ cs₂) := by
  induction cs₁ generalizing acc with
  | nil => simpa [commitBatchOps] using h₂
  | cons c rest ih =>
    rcases h₁ with ⟨g1, g2⟩
    refine ⟨g1, ih _ g2 ?_⟩
    simpa [commitBatchOps, List.append_assoc] using h₂

theorem commitsCum_spec (acc : List Operation)
    (cs : List (Registry × List Operation)) (h : commitsCum acc cs) :
    commitsSpecCum acc cs := by
  induction cs generalizing acc with
  | nil => trivial
  | cons c rest ih =>
    rcases h with ⟨h1, h2⟩
    refine ⟨?_, ih _ h2⟩
    rw [h1, idsOf_applyOps]
    rfl

theorem submittedOps_cons (e : Event) (t : List Event) :
    submittedOps (e :: t) = submittedOps [e] ++ submittedOps t := by
  cases e <;> rfl

theorem isEmpty_append_singleton (l : List (Nat × Operation))
    (x : Nat × Operation) : (l ++ [x]).isEmpty = false := by
  cases l <;> rfl

theorem update_eq_of_ready (s : ActorState) (R : Registry)
    (hreg : s.registry = some R) (hne : s.pending.isEmpty = false) :
    GenericRegistrarProcess.update s
      = { s with
            pending := []
            inflight := some ((applyBatch R s.pending).1,
                              (applyBatch R s.pending).2) } := by
  rw [GenericRegistrarProcess.update, hne, hreg]
  simp

/-- Inductive invariant of the recovered actor: relative to the operations
already committed (C) and all operations submitted so far (subs), the
in-memory registry is the fold of C over the empty registry, an in-flight
snapshot is the fold of its batch over that registry (and excludes a sticky
error), and while no error occurred, the committed, in-flight and queued
operations concatenate, in order, to the submitted sequence. -/
structure InvP (s : ActorState) (C subs : List Operation) : Prop where
  rc : s.recoveredCalled = true
  rd : s.recoveryDone = true
  reg : s.registry = some (applyOps C emptyRegistry)
  infl : ∀ p : Registry × List (Nat × Operation × Bool), s.inflight = some p →
      p.1 = applyOps (p.2.map fun x => x.2.1) (applyOps C emptyRegistry)
      ∧ s.error = none
  acct : s.error = none → C ++ inflightOpsOf s ++ pendingOpsOf s = subs
  errInfl : s.error ≠ none → s.inflight = none

theorem _apply_inv (s : ActorState) (C subs : List Operation) (tag : Nat)
    (op : Operation) (h : InvP s C subs) :
    InvP (GenericRegistrarProcess._apply s tag op).1 C (subs ++ [op])
    ∧ committedOpsOf (GenericRegistrarProcess._apply s tag op).2 = []
    ∧ commitsOf (GenericRegistrarProcess._apply s tag op).2 = [] := by
  cases herr : s.error with
  | some e =>
    have hres : GenericRegistrarProcess._apply s tag op
        = (s, [Obs.outcome tag (OpOutcome.failed e)]) := by
      simp [GenericRegistrarProcess._apply, herr]
    rw [hres]
    refine ⟨⟨h.rc, h.rd, h.reg, h.infl, ?_, h.errInfl⟩, rfl, rfl⟩
    intro hnone
    rw [herr] at hnone
    exact absurd hnone (by simp)
  | none =>
    cases hin : s.inflight with
    | some p =>
      have hres : GenericRegistrarProcess._apply s tag op
          = ({ s with pending := s.pending ++ [(tag, op)] }, []) := by
        simp [GenericRegistrarProcess._apply, herr, hin]
      rw [hres]
      refine ⟨⟨h.rc, h.rd, h.reg, ?_, ?_, ?_⟩, rfl, rfl⟩
      · intro q hq
        exact h.infl q hq
      · intro _
        have hacct := h.acct herr
        simp only [inflightOpsOf, pendingOpsOf, hin, List.map_append] at hacct ⊢
        rw [← hacct]
        simp [List.append_assoc]
      · intro hne
        exact absurd herr hne
    | none =>
      have hres : GenericRegistrarProcess._apply s tag op
          = (GenericRegistrarProcess.update
              { s with pending := s.pending ++ [(tag, op)] }, []) := by
        simp [GenericRegistrarProcess._apply, herr, hin]
      have hupd := update_eq_of_ready
        { s with pending := s.pending ++ [(tag, op)] }
        (applyOps C emptyRegistry) h.reg
        (isEmpty_append_singleton s.pending (tag, op))
      rw [hres, hupd]
      refine ⟨⟨h.rc, h.rd, h.reg, ?_, ?_, ?_⟩, rfl, rfl⟩
      · intro q hq
        have hq2 := Option.some.inj hq
        rw [← hq2]
        refine ⟨?_, herr⟩
        rw [applyBatch_ops, applyBatch_fst]
      · intro _
        have hacct := h.acct herr
        simp only [inflightOpsOf, pendingOpsOf, hin, List.map_nil] at hacct
        simp only [inflightOpsOf, pendingOpsOf, applyBatch_ops, List.map_append]
        rw [← hacct]
        simp [List.append_assoc]
      · intro hne
        exact absurd herr hne

theorem _update_inv (s : ActorState) (C subs : List Operation)
    (p : Registry × List (Nat × Operation × Bool)) (store : StoreOutcome)
    (hin : s.inflight = some p) (h : InvP s C subs) :
    InvP (GenericRegistrarProcess._update s store p.1 p.2).1
        (C ++ committedOpsOf (GenericRegistrarProcess._update s store p.1 p.2).2)
        subs
    ∧ commitsCum C
        (commitsOf (GenericRegistrarProcess._update s store p.1 p.2).2) := by
  rcases h.infl p hin with ⟨hsnap, herr⟩
  cases store with
  | ok v =>
    have hres : GenericRegistrarProcess._update s (StoreOutcome.ok v) p.1 p.2
        = (GenericRegistrarProcess.update
             { s with
                 inflight := none
                 varVersion := some v
                 registry := some p.1 },
           Obs.committed p.1 (p.2.map fun x => x.2.1)
             :: p.2.map (fun x => Obs.outcome x.1 (OpOutcome.resolved x.2.2))) := rfl
    rw [hres]
    have hobs1 : committedOpsOf
        (Obs.committed p.1 (p.2.map fun x => x.2.1)
          :: p.2.map (fun x => Obs.outcome x.1 (OpOutcome.resolved x.2.2)))
        = p.2.map fun x => x.2.1 := by
      simp [committedOpsOf, committedOpsOf_outcomes]
    have hobs2 : commitsOf
        (Obs.committed p.1 (p.2.map fun x => x.2.1)
          :: p.2.map (fun x => Obs.outcome x.1 (OpOutcome.resolved x.2.2)))
        = [(p.1, p.2.map fun x => x.2.1)] := by
      simp [commitsOf, commitsOf_outcomes]
    rw [hobs1, hobs2]
    refine ⟨?_, ?_, trivial⟩
    · cases hp : s.pending with
      | nil =>
        have hu : GenericRegistrarProcess.update
            { s with
                inflight := none
                varVersion := some v
                registry := some p.1
                pending := ([] : List (Nat × Operation)) }
            = { s with
                  inflight := none
                  varVersion := some v
                  registry := some p.1
                  pending := ([] : List (Nat × Operation)) } := by
          rw [GenericRegistrarProcess.update]
          simp
        rw [hu]
        refine ⟨h.rc, h.rd, ?_, ?_, ?_, ?_⟩
        · show some p.1 = _
          rw [hsnap, applyOps_append]
        · intro q hq
          exact Option.noConfusion hq
        · intro _
          have hacct := h.acct herr
          simp only [inflightOpsOf, pendingOpsOf, hin, hp, List.map_nil] at hacct
          simp only [inflightOpsOf, pendingOpsOf, List.map_nil]
          simpa using hacct
        · intro hne
          exact absurd herr hne
      | cons a t =>
        have hu := update_eq_of_ready
          { s with
              inflight := none
              varVersion := some v
              registry := some p.1
              pending := a :: t } p.1 rfl rfl
        rw [hu]
        refine ⟨h.rc, h.rd, ?_, ?_, ?_, ?_⟩
        · show some p.1 = _
          rw [hsnap, applyOps_append]
        · intro q hq
          have hq2 := Option.some.inj hq
          rw [← hq2]
          refine ⟨?_, herr⟩
          rw [applyBatch_ops, applyBatch_fst, applyOps_append, ← hsnap]
        · intro _
          have hacct := h.acct herr
          simp only [inflightOpsOf, pendingOpsOf, hin, hp] at hacct
          simp only [inflightOpsOf, pendingOpsOf, applyBatch_ops, List.map_nil]
          rw [← hacct]
          simp [List.append_assoc]
        · intro hne
          exact absurd herr hne
    · rw [hsnap, applyOps_append]
  | failed msg =>
    have hres : GenericRegistrarProcess._update s (StoreOutcome.failed msg) p.1 p.2
        = ({ s with
               inflight := none
               error := some (failureMessage (StoreOutcome.failed msg)) },
           p.2.map (fun x => Obs.outcome x.1
             (OpOutcome.failed (failureMessage (StoreOutcome.failed msg))))) := rfl
    rw [hres]
    rw [committedOpsOf_outcomes, commitsOf_outcomes]
    refine ⟨⟨h.rc, h.rd, by simpa using h.reg, ?_, ?_, fun _ => rfl⟩, trivial⟩
    · intro q hq
      exact Option.noConfusion hq
    · intro hnone
      exact Option.noConfusion hnone
  | discarded =>
    have hres : GenericRegistrarProcess._update s StoreOutcome.discarded p.1 p.2
        = ({ s with
               inflight := none
               error := some (failureMessage StoreOutcome.discarded) },
           p.2.map (fun x => Obs.outcome x.1
             (OpOutcome.failed (failureMessage StoreOutcome.discarded)))) := rfl
    rw [hres]
    rw [committedOpsOf_outcomes, commitsOf_outcomes]
    refine ⟨⟨h.rc, h.rd, by simpa using h.reg, ?_, ?_, fun _ => rfl⟩, trivial⟩
    · intro q hq
      exact Option.noConfusion hq
    · intro hnone
      exact Option.noConfusion hnone
  | conflict =>
    have hres : GenericRegistrarProcess._update s StoreOutcome.conflict p.1 p.2
        = ({ s with
               inflight := none
               error := some (failureMessage StoreOutcome.conflict) },
           p.2.map (fun x => Obs.outcome x.1
             (OpOutcome.failed (failureMessage StoreOutcome.conflict)))) := rfl
    rw [hres]
    rw [committedOpsOf_outcomes, commitsOf_outcomes]
    refine ⟨⟨h.rc, h.rd, by simpa using h.reg, ?_, ?_, fun _ => rfl⟩, trivial⟩
    · intro q hq
      exact Option.noConfusion hq
    · intro hnone
      exact Option.noConfusion hnone

theorem step_inv (s : ActorState) (C subs : List Operation) (e : Event)
    (h : InvP s C subs) :
    InvP (step s e).1 (C ++ committedOpsOf (step s e).2)
      (subs ++ submittedOps [e])
    ∧ commitsCum C (commitsOf (step s e).2) := by
  cases e with
  | recover =>
    have hstep : step s Event.recover = (s, []) := by simp [step, h.rc]
    rw [hstep]
    exact ⟨by simpa [committedOpsOf, submittedOps] using h, trivial⟩
  | recoveryComplete reg v =>
    have hstep : step s (Event.recoveryComplete reg v) = (s, []) := by
      simp [step, h.rd]
    rw [hstep]
    exact ⟨by simpa [committedOpsOf, submittedOps] using h, trivial⟩
  | submit tag op =>
    have hstep : step s (Event.submit tag op)
        = GenericRegistrarProcess._apply s tag op := by
      simp [step, GenericRegistrarProcess.apply, h.rc, h.rd]
    rw [hstep]
    rcases _apply_inv s C subs tag op h with ⟨h1, h2, h3⟩
    rw [h2, h3]
    exact ⟨by simpa [submittedOps] using h1, trivial⟩
  | storeResult store =>
    cases hin : s.inflight with
    | none =>
      have hstep : step s (Event.storeResult store) = (s, []) := by
        simp [step, hin]
      rw [hstep]
      exact ⟨by simpa [committedOpsOf, submittedOps] using h, trivial⟩
    | some p =>
      have hstep : step s (Event.storeResult store)
          = GenericRegistrarProcess._update s store p.1 p.2 := by
        simp [step, hin]
      rw [hstep]
      rcases _update_inv s C subs p store hin h with ⟨h1, h2⟩
      exact ⟨by simpa [submittedOps] using h1, h2⟩

theorem run_inv (t : List Event) (s : ActorState) (C subs : List Operation)
    (h : InvP s C subs) :
    InvP (run s t).1 (C ++ committedOpsOf (run s t).2) (subs ++ submittedOps t)
    ∧ commitsCum C (commitsOf (run s t).2) := by
  induction t generalizing s C subs with
  | nil => exact ⟨by simpa [committedOpsOf, submittedOps] using h, trivial⟩
  | cons e t ih =>
    rcases step_inv s C subs e h with ⟨h1, h2⟩
    rcases ih (step s e).1 (C ++ committedOpsOf (step s e).2)
      (subs ++ submittedOps [e]) h1 with ⟨g1, g2⟩
    have hrun : run s (e :: t)
        = ((run (step s e).1 t).1, (step s e).2 ++ (run (step s e).1 t).2) := by
      simp [run]
    rw [hrun]
    constructor
    · have := g1
      rw [submittedOps_cons]
      simpa [committedOpsOf_append, List.append_assoc] using this
    · rw [commitsOf_append]
      refine commitsCum_append C _ _ h2 ?_
      rw [← committedOpsOf_eq_commitBatchOps]
      exact g2

/-- C1: for every sequence of operations submitted through one
versioned-store registrar recovered from an empty registry, each successful
batch commit stores exactly the identities obtained by the spec-side replay,
against the empty set, of all operations committed so far (the batches
concatenated in submission order, operations whose perform errored
contributing nothing); and as long as no commit-path error has occurred, the
committed, in-flight and queued operations concatenate, in order, to exactly
the submitted sequence, so the commit history replays the submitted sequence
in submission order. -/
theorem registrar_commits_replay (v : Nat) (rest : List Event) :
    commitsSpecCum []
      (commitsOf (run initState
        (Event.recover :: Event.recoveryComplete emptyRegistry v :: rest)).2)
    ∧ ((run initState
          (Event.recover :: Event.recoveryComplete emptyRegistry v :: rest)).1.error
            = none →
        committedOpsOf (run initState
            (Event.recover :: Event.recoveryComplete emptyRegistry v :: rest)).2
          ++ inflightOpsOf (run initState
            (Event.recover :: Event.recoveryComplete emptyRegistry v :: rest)).1
          ++ pendingOpsOf (run initState
            (Event.recover :: Event.recoveryComplete emptyRegistry v :: rest)).1
          = submittedOps rest) := by
  have hs2 : InvP
      { recoveredCalled := true, recoveryDone := true,
        registry := some emptyRegistry, varVersion := some v, error := none,
        waiting := [], pending := [], inflight := none } [] [] :=
    ⟨rfl, rfl, rfl, fun q hq => Option.noConfusion hq, fun _ => rfl,
     fun hne => absurd rfl hne⟩
  have hrun : run initState
      (Event.recover :: Event.recoveryComplete emptyRegistry v :: rest)
      = run
          { recoveredCalled := true, recoveryDone := true,
            registry := some emptyRegistry, varVersion := some v, error := none,
            waiting := [], pending := [], inflight := none } rest := by
    simp [run, step, flushWaiting, initState]
  rcases run_inv rest _ [] [] hs2 with ⟨g1, g2⟩
  rw [hrun]
  constructor
  · exact commitsCum_spec _ _ g2
  · intro herr
    have hacc := g1.acct herr
    simpa using hacc

theorem registrar_commits_replay_witness :
    commitsSpecCum []
      (commitsOf (run initState
        (Event.recover :: Event.recoveryComplete emptyRegistry 1 ::
          [Event.submit 0 admitA, Event.storeResult (StoreOutcome.ok 2)])).2)
    ∧ committedOpsOf (run initState
        (Event.recover :: Event.recoveryComplete emptyRegistry 1 ::
          [Event.submit 0 admitA, Event.storeResult (StoreOutcome.ok 2)])).2
      ++ inflightOpsOf (run initState
        (Event.recover :: Event.recoveryComplete emptyRegistry 1 ::
          [Event.submit 0 admitA, Event.storeResult (StoreOutcome.ok 2)])).1
      ++ pendingOpsOf (run initState
        (Event.recover :: Event.recoveryComplete emptyRegistry 1 ::
          [Event.submit 0 admitA, Event.storeResult (StoreOutcome.ok 2)])).1
      = submittedOps [Event.submit 0 admitA, Event.storeResult (StoreOutcome.ok 2)] :=
  ⟨(registrar_commits_replay 1
      [Event.submit 0 admitA, Event.storeResult (StoreOutcome.ok 2)]).1,
   (registrar_commits_replay 1
      [Event.submit 0 admitA, Event.storeResult (StoreOutcome.ok 2)]).2 rfl⟩
